import Mathlib

/-!
Verification of the agent-exchange marketplace core against its design
document.  The Python sources are shallowly embedded: money is modelled
as exact rationals (the "decimal" semantics of the design document), and the Python
`round(x, 2)` as round-half-even on the cent grid, dictionaries with
defaulted `get` calls as structures whose fields hold the resolved
values, and fallible handlers as `Except`-valued functions.
-/

namespace AP2

/-- Round-half-even to an integer, the tie-breaking rule of the Python
built-in `round`. -/
def rhe (x : ℚ) : ℤ :=
  let n := ⌊x⌋
  if x - n < 1 / 2 then n
  else if 1 / 2 < x - n then n + 1
  else if n % 2 = 0 then n else n + 1

/-- The Python `round(x, 2)` call: round-half-even onto the two-decimal grid. -/
def round2 (x : ℚ) : ℚ := (rhe (100 * x) : ℚ) / 100

/-- `x` is an exact amount of cents (already on the two-decimal grid). -/
def isCents (x : ℚ) : Prop := ∃ k : ℤ, x = (k : ℚ) / 100

/-- The numeric content of the cart produced by
`BasePaymentAgent.generate_cart_mandate` (src/demo/agents/common/payment_agent.py):
the three displayed line-item values (base service, processing fee,
category reward) and the cart total.  The fee and reward lines are
rounded to two decimals for display, the base line is the raw amount,
and the total is `round(amount + fee_amount - reward_amount, 2)`. -/
structure CartQuote where
  baseLine : ℚ
  feeLine : ℚ
  rewardLine : ℚ
  total : ℚ
deriving DecidableEq

/-- Shallow embedding of the arithmetic of
`BasePaymentAgent.generate_cart_mandate`: `fee_amount = amount * (base_fee_percent / 100)`,
`reward_amount = amount * (reward / 100)`, `net_fee = fee_amount - reward_amount`,
`total_with_fee = amount + net_fee`; display lines round the fee and the
negated reward, the total rounds `total_with_fee`. -/
def generate_cart_mandate (amount feePct rewardPct : ℚ) : CartQuote :=
  let fee_amount := amount * (feePct / 100)
  let reward_amount := amount * (rewardPct / 100)
  let net_fee := fee_amount - reward_amount
  let total_with_fee := amount + net_fee
  { baseLine := amount
    feeLine := round2 fee_amount
    rewardLine := round2 (-reward_amount)
    total := round2 total_with_fee }

end AP2

namespace Gate

/-- One entry of the transaction history of the token ledger, as consumed by
`MoltbotAgent._verify_payment_received`. -/
structure TxRecord where
  txId : String
  from_wallet : String
  to_wallet : String
  amount : ℚ

/-- The payment-relevant fields of an inbound request message, with the
dictionary defaults already resolved exactly as the code resolves them:
`from_agent = message.get("from_agent", message.get("consumer_id", ""))`,
`payment_amount = message.get("payment_amount", 0)`,
`payment_id = message.get("payment_id", message.get("transaction_id", ""))`,
`skip_payment = message.get("skip_payment", False)`. -/
structure PaymentMessage where
  from_agent : String
  payment_amount : ℚ
  payment_id : String
  skip_payment : Bool

/-- Which rule of the payment-verification gate fired. -/
inductive VerifyOutcome where
  | skipAllowed
  | underpaid
  | idTrusted
  | historyVerified
  | rejected
deriving DecidableEq

/-- The per-transaction predicate of the history scan:
`tx.from_wallet == from_agent and tx.to_wallet == agent_id and tx.amount >= service_price`. -/
def matchesPayment (agentId : String) (price : ℚ) (fromAgent : String)
    (tx : TxRecord) : Bool :=
  tx.from_wallet == fromAgent && tx.to_wallet == agentId && decide (price ≤ tx.amount)

/-- `history[-10:]`, the last ten records of the transaction history. -/
def lastTen (l : List TxRecord) : List TxRecord := l.drop (l.length - 10)

/-- Decision core of `MoltbotAgent._verify_payment_received`
(src/demo/moltbot_integration/agents/common/moltbot_agent.py).
`historyResult` is `some h` when a token client is configured and its
`get_transaction_history` call returns `h`; `none` models a missing
token client or an exception during the lookup (both fall through to
rejection in the code). -/
def verifyOutcome (price : ℚ) (agentId : String)
    (historyResult : Option (List TxRecord)) (msg : PaymentMessage) :
    VerifyOutcome :=
  if msg.skip_payment then .skipAllowed
  else if 0 < msg.payment_amount ∧ msg.payment_amount < price then .underpaid
  else if msg.payment_id ≠ "" then .idTrusted
  else
    match (if msg.from_agent ≠ "" then historyResult else none) with
    | some history =>
        if (lastTen history).reverse.any (matchesPayment agentId price msg.from_agent)
        then .historyVerified
        else .rejected
    | none => .rejected

/-- The "under salary" rejection text (quoting of the amounts follows the
f-string in the code). -/
def underpaidMessage (offered price : ℚ) : String :=
  "Payment too low: offered " ++ toString offered ++ " AEX, but service costs "
    ++ toString price ++ " AEX. This is below the minimum service price."

/-- The final "payment required" rejection text, naming the required
amount and the provider id. -/
def paymentRequiredMessage (price : ℚ) (agentId : String) : String :=
  "Payment required: " ++ toString price ++ " AEX. Please pay to " ++ agentId
    ++ " first, then include payment_id or payment_amount in your request."

/-- `MoltbotAgent._verify_payment_received`, returning the
`(verified, error_message)` pair of the code. -/
def verify_payment_received (price : ℚ) (agentId : String)
    (historyResult : Option (List TxRecord)) (msg : PaymentMessage) :
    Bool × String :=
  match verifyOutcome price agentId historyResult msg with
  | .skipAllowed => (true, "")
  | .underpaid => (false, underpaidMessage msg.payment_amount price)
  | .idTrusted => (true, "")
  | .historyVerified => (true, "")
  | .rejected => (false, paymentRequiredMessage price agentId)

end Gate

namespace A2A

/-- One content fragment of a message part, mirroring the
`{"type": ..., "text": ...}` dictionaries the demo exchanges; the
protocol engine itself never inspects parts. -/
structure Part where
  ptype : String
  text : String
deriving DecidableEq

/-- An A2A `Message` (src/demo/agents/common/a2a_server.py). -/
structure A2AMessage where
  role : String
  parts : List Part
  messageId : String
deriving DecidableEq

/-- A task status dictionary: `{"state": ..., "message": ...}`. -/
structure TaskStatus where
  state : String
  message : Option String
deriving DecidableEq

/-- A named artifact bundle appended by an `artifact` event. -/
structure Artifact where
  name : String
  parts : List Part
deriving DecidableEq

/-- An A2A `Task` (src/demo/agents/common/a2a_server.py). -/
structure A2ATask where
  id : String
  sessionId : String
  status : TaskStatus
  history : List A2AMessage
  artifacts : List Artifact
deriving DecidableEq

/-- The `self.tasks` dictionary, as an association list keyed by task id. -/
def TaskStore : Type := List (String × A2ATask)

/-- Dictionary lookup `self.tasks[tid]`. -/
def lookupTask : TaskStore → String → Option A2ATask
  | [], _ => none
  | (k, v) :: rest, tid => if k = tid then some v else lookupTask rest tid

/-- Dictionary assignment `self.tasks[tid] = t` (replace or append). -/
def setTask : TaskStore → String → A2ATask → TaskStore
  | [], tid, t => [(tid, t)]
  | (k, v) :: rest, tid, t =>
      if k = tid then (tid, t) :: rest else (k, v) :: setTask rest tid t

/-- One event yielded by the `handle_message` generator of a handler. -/
inductive HandlerEvent where
  | status (state : String) (message : Option String)
  | artifact (name : String) (parts : List Part)
  | result (parts : List Part)
deriving DecidableEq

/-- One run of the handler generator: the events it yields, and
`some errText` when it then raises instead of finishing normally. -/
structure HandlerRun where
  events : List HandlerEvent
  fault : Option String
deriving DecidableEq

/-- The event-consumption loop of `A2AServer._handle_message_send`:
`status` events overwrite the status of the task in place, `artifact`
events accumulate, and the parts of the (last) `result` event become
the response parts. -/
def processEvents : List HandlerEvent → TaskStatus → List Artifact → List Part →
    TaskStatus × List Artifact × List Part
  | [], st, arts, resp => (st, arts, resp)
  | .status s m :: rest, _, arts, resp =>
      processEvents rest ⟨s, m⟩ arts resp
  | .artifact n ps :: rest, st, arts, resp =>
      processEvents rest st (arts ++ [⟨n, ps⟩]) resp
  | .result ps :: rest, st, arts, _ =>
      processEvents rest st arts ps

/-- `A2AServer._handle_message_send`.  `taskId` stands for the fresh
`uuid4` the code draws, `agentMessageId` for the fresh id of the agent
reply message, and `run` for the behaviour of the handler generator on this
call.  Mirrors the code: the task is stored in `submitted` state before
the handler runs; status events mutate the stored task; if the handler
raises, the partially updated task stays in the store (artifacts and the
agent reply are only attached on normal completion) and the exception
propagates; on normal completion the status is set to `completed`
unconditionally and the full task is returned. -/
def handle_message_send (store : TaskStore) (taskId sessionId : String)
    (message : A2AMessage) (agentMessageId : String) (run : HandlerRun) :
    TaskStore × Except String A2ATask :=
  let t0 : A2ATask :=
    { id := taskId, sessionId := sessionId
      status := ⟨"submitted", none⟩, history := [message], artifacts := [] }
  let store1 := setTask store taskId t0
  let pr := processEvents run.events t0.status [] []
  match run.fault with
  | some err => (setTask store1 taskId { t0 with status := pr.1 }, .error err)
  | none =>
      let t1 : A2ATask :=
        { t0 with
            status := ⟨"completed", none⟩
            artifacts := pr.2.1
            history :=
              if pr.2.2 ≠ [] then
                t0.history ++ [⟨"agent", pr.2.2, agentMessageId⟩]
              else t0.history }
      (setTask store1 taskId t1, .ok t1)

/-- `A2AServer._handle_tasks_get`: raises `Task not found` when the id is
missing, empty, or unknown. -/
def handle_tasks_get (store : TaskStore) (taskId : Option String) :
    Except String A2ATask :=
  match taskId with
  | none => .error "Task not found: None"
  | some tid =>
      if tid = "" then .error ("Task not found: " ++ tid)
      else
        match lookupTask store tid with
        | none => .error ("Task not found: " ++ tid)
        | some t => .ok t

/-- `A2AServer._handle_tasks_cancel`: unconditionally sets the status of
an existing task to `canceled` (no terminal-state check) and returns the
updated snapshot; raises `Task not found` otherwise. -/
def handle_tasks_cancel (store : TaskStore) (taskId : Option String) :
    TaskStore × Except String A2ATask :=
  match taskId with
  | none => (store, .error "Task not found: None")
  | some tid =>
      if tid = "" then (store, .error ("Task not found: " ++ tid))
      else
        match lookupTask store tid with
        | none => (store, .error ("Task not found: " ++ tid))
        | some t =>
            let t1 := { t with status := (⟨"canceled", none⟩ : TaskStatus) }
            (setTask store tid t1, .ok t1)

/-- A JSON-RPC request envelope with the fields the dispatcher reads.
`params` fields are resolved the way the code resolves the dictionary:
`message.get("role", "user")`, `message.get("parts", [])`, a fresh uuid
when `messageId` or `sessionId` is absent, and `params.get("id")` for
the task operations. -/
structure RpcRequest where
  jsonrpc : String
  method : String
  reqId : Option String
  message : A2AMessage
  sessionId : String
  paramsTaskId : Option String
deriving DecidableEq

/-- A JSON-RPC response: either a result carrying a task snapshot or an
error envelope `{code, message}`. -/
inductive RpcResponse where
  | result (reqId : Option String) (task : A2ATask)
  | error (reqId : Option String) (code : ℤ) (message : String)
deriving DecidableEq

/-- `A2AServer._handle_jsonrpc` for a server with `require_auth = False`
(the constructor default; every claim here concerns the unauthenticated
path).  `taskId`/`agentMessageId`/`run` model the fresh uuids and the
handler behaviour consumed by a `message/send` (or the delegating
`message/stream`) call.  Any exception escaping a routed handler is
caught and converted into a `-32603` error envelope carrying the
request id and the exception text. -/
def handle_jsonrpc (store : TaskStore) (req : RpcRequest)
    (taskId agentMessageId : String) (run : HandlerRun) :
    TaskStore × RpcResponse :=
  if req.jsonrpc ≠ "2.0" then
    (store, .error req.reqId (-32600) "Invalid Request")
  else if req.method = "message/send" ∨ req.method = "message/stream" then
    match handle_message_send store taskId req.sessionId req.message
        agentMessageId run with
    | (store1, .ok t) => (store1, .result req.reqId t)
    | (store1, .error e) => (store1, .error req.reqId (-32603) e)
  else if req.method = "tasks/get" then
    match handle_tasks_get store req.paramsTaskId with
    | .ok t => (store, .result req.reqId t)
    | .error e => (store, .error req.reqId (-32603) e)
  else if req.method = "tasks/cancel" then
    match handle_tasks_cancel store req.paramsTaskId with
    | (store1, .ok t) => (store1, .result req.reqId t)
    | (store1, .error e) => (store1, .error req.reqId (-32603) e)
  else
    (store, .error req.reqId (-32601) ("Method not found: " ++ req.method))

/-- One dispatched task-protocol operation, with the external
nondeterminism (fresh uuids, handler behaviour) carried as data. -/
inductive EngineOp where
  | sendMessage (taskId sessionId : String) (message : A2AMessage)
      (agentMessageId : String) (run : HandlerRun)
  | getTask (taskId : Option String)
  | cancelTask (taskId : Option String)

/-- The effect of one dispatched operation on the task store. -/
def applyOp (store : TaskStore) : EngineOp → TaskStore
  | .sendMessage tid sid msg amid run =>
      (handle_message_send store tid sid msg amid run).1
  | .getTask _ => store
  | .cancelTask tid => (handle_tasks_cancel store tid).1

/-- The store after a sequence of dispatched operations. -/
def runOps (store : TaskStore) (ops : List EngineOp) : TaskStore :=
  ops.foldl applyOp store

/-- The terminal states of the documented transition graph. -/
def isTerminal (s : String) : Prop :=
  s = "completed" ∨ s = "failed" ∨ s = "canceled"

end A2A

namespace AEX

/-- A bid dictionary as assembled by `fetch_real_bids` / `simulate_bids`
in src/demo/aex/ui/main.py (the same shape is used by
src/demo/ui/main.py). -/
structure AuctionBid where
  provider_id : String
  provider_name : String
  price : ℚ
  confidence : ℚ
  estimated_minutes : ℤ
  trust_score : ℚ
  tier : String
  a2a_endpoint : String
deriving DecidableEq

/-- The weight vector of one strategy over the four scoring signals. -/
structure Weights where
  wprice : ℚ
  wtrust : ℚ
  wconfidence : ℚ
  wsla : ℚ
deriving DecidableEq

/-- `weights.get(strategy, weights["balanced"])`: the three fixed
strategies, any other string falling back to `balanced`. -/
def weightsFor (strategy : String) : Weights :=
  if strategy = "lowest_price" then ⟨6/10, 2/10, 1/10, 1/10⟩
  else if strategy = "best_quality" then ⟨1/10, 4/10, 3/10, 2/10⟩
  else ⟨3/10, 3/10, 25/100, 15/100⟩

/-- `max(b["price"] for b in bids)` over the nonempty list `b :: bs`. -/
def maxPrice (b : AuctionBid) (bs : List AuctionBid) : ℚ :=
  bs.foldl (fun m x => max m x.price) b.price

/-- `min(b["price"] for b in bids)` over the nonempty list `b :: bs`. -/
def minPrice (b : AuctionBid) (bs : List AuctionBid) : ℚ :=
  bs.foldl (fun m x => min m x.price) b.price

/-- `price_range = max_price - min_price if max_price != min_price else 1`. -/
def priceRange (maxp minp : ℚ) : ℚ := if maxp ≠ minp then maxp - minp else 1

/-- `price_score = 1 - ((bid["price"] - min_price) / price_range)`. -/
def priceScore (minp range : ℚ) (x : AuctionBid) : ℚ :=
  1 - (x.price - minp) / range

/-- `sla_score = min(1.0, 30 / max(bid["estimated_minutes"], 1))`. -/
def slaScore (x : AuctionBid) : ℚ :=
  min 1 (30 / ((max x.estimated_minutes 1 : ℤ) : ℚ))

/-- The weighted total score attached to one bid. -/
def bidScore (w : Weights) (minp range : ℚ) (x : AuctionBid) : ℚ :=
  w.wprice * priceScore minp range x + w.wtrust * x.trust_score
    + w.wconfidence * x.confidence + w.wsla * slaScore x

/-- The scoring pass of `evaluate_bids` over the nonempty bid list
`b :: bs`: each bid paired with its computed score. -/
def scoredBids (b : AuctionBid) (bs : List AuctionBid) (strategy : String) :
    List (AuctionBid × ℚ) :=
  let minp := minPrice b bs
  let range := priceRange (maxPrice b bs) minp
  let w := weightsFor strategy
  (b :: bs).map (fun x => (x, bidScore w minp range x))

/-- `evaluate_bids` (src/demo/aex/ui/main.py and src/demo/ui/main.py):
scores every bid, then returns `sorted(bids, key=score, reverse=True)` —
a stable descending sort.  `none` models the `ValueError` that the
Python `max()` builtin raises on an empty bid list. -/
def evaluate_bids (bids : List AuctionBid) (strategy : String) :
    Option (List (AuctionBid × ℚ)) :=
  match bids with
  | [] => none
  | b :: bs =>
      some ((scoredBids b bs strategy).mergeSort (fun p q => decide (q.2 ≤ p.2)))

/-- `simulate_bids` in src/demo/aex/ui/main.py: the clearly-labelled
synthetic fallback bid set (names suffixed `(SIMULATED)`, `$99.xx`
prices, `UNVERIFIED` tier). -/
def simulate_bids (pages : ℚ) (urlA urlB urlC : String) : List AuctionBid :=
  [ { provider_id := "budget-legal-ai"
      provider_name := "Budget Legal AI (SIMULATED)"
      price := 9901/100 + pages
      confidence := 50/100
      estimated_minutes := 999
      trust_score := 10/100
      tier := "UNVERIFIED"
      a2a_endpoint := urlA ++ "/a2a" },
    { provider_id := "standard-legal-ai"
      provider_name := "Standard Legal AI (SIMULATED)"
      price := 9902/100 + pages
      confidence := 50/100
      estimated_minutes := 999
      trust_score := 10/100
      tier := "UNVERIFIED"
      a2a_endpoint := urlB ++ "/a2a" },
    { provider_id := "premium-legal-ai"
      provider_name := "Premium Legal AI (SIMULATED)"
      price := 9903/100 + pages
      confidence := 50/100
      estimated_minutes := 999
      trust_score := 10/100
      tier := "UNVERIFIED"
      a2a_endpoint := urlC ++ "/a2a" } ]

/-- The fallback decision at the end of `fetch_real_bids`
(src/demo/aex/ui/main.py): `received` is the list of well-formed bids
parsed out of the per-provider A2A calls (the network layer itself is
I/O and is abstracted to its outcome); if it is empty the simulated set
is substituted, otherwise the real bids are returned as-is. -/
def fetch_real_bids_outcome (pages : ℚ) (urlA urlB urlC : String)
    (received : List AuctionBid) : List AuctionBid :=
  if received.isEmpty then simulate_bids pages urlA urlB urlC else received

end AEX

namespace AP2

theorem rhe_intCast (k : ℤ) : rhe (k : ℚ) = k := by
  unfold rhe
  norm_num

theorem round2_cents (k : ℤ) : round2 ((k : ℚ) / 100) = (k : ℚ) / 100 := by
  unfold round2
  rw [show (100 : ℚ) * ((k : ℚ) / 100) = (k : ℚ) by ring, rhe_intCast]

theorem round2_eq_self {x : ℚ} (h : isCents x) : round2 x = x := by
  obtain ⟨k, rfl⟩ := h
  exact round2_cents k

theorem isCents_neg {x : ℚ} (h : isCents x) : isCents (-x) := by
  obtain ⟨k, rfl⟩ := h
  exact ⟨-k, by push_cast; ring⟩

theorem isCents_add {x y : ℚ} (hx : isCents x) (hy : isCents y) :
    isCents (x + y) := by
  obtain ⟨k, rfl⟩ := hx
  obtain ⟨m, rfl⟩ := hy
  exact ⟨k + m, by push_cast; ring⟩

theorem isCents_sub {x y : ℚ} (hx : isCents x) (hy : isCents y) :
    isCents (x - y) := by
  have := isCents_add hx (isCents_neg hy)
  simpa [sub_eq_add_neg] using this

end AP2

namespace A2A

theorem lookupTask_setTask_self (s : TaskStore) (k : String) (t : A2ATask) :
    lookupTask (setTask s k t) k = some t := by
  induction s with
  | nil => simp [setTask, lookupTask]
  | cons hd tl ih =>
      obtain ⟨k', t'⟩ := hd
      by_cases h : k' = k
      · simp [setTask, lookupTask, h]
      · simp [setTask, lookupTask, h, ih]

theorem lookupTask_setTask_ne (s : TaskStore) {k k' : String} (t : A2ATask)
    (h : k' ≠ k) : lookupTask (setTask s k t) k' = lookupTask s k' := by
  induction s with
  | nil => simp [setTask, lookupTask, Ne.symm h]
  | cons hd tl ih =>
      obtain ⟨k0, t0⟩ := hd
      by_cases h0 : k0 = k
      · subst h0
        simp [setTask, lookupTask, Ne.symm h]
      · simp only [setTask, if_neg h0, lookupTask, ih]

/-- A `message/send` only touches the entry at its fresh task id. -/
theorem handle_message_send_store_other (store : TaskStore)
    (taskId sessionId : String) (message : A2AMessage)
    (agentMessageId : String) (run : HandlerRun) {tid : String}
    (h : tid ≠ taskId) :
    lookupTask (handle_message_send store taskId sessionId message
      agentMessageId run).1 tid = lookupTask store tid := by
  unfold handle_message_send
  cases run.fault <;>
    simp [lookupTask_setTask_ne _ _ h]

end A2A

namespace AEX

theorem le_foldl_max (a : ℚ) (bs : List AuctionBid) :
    a ≤ bs.foldl (fun m x => max m x.price) a := by
  induction bs generalizing a with
  | nil => exact le_refl a
  | cons x bs ih =>
      exact le_trans (le_max_left a x.price) (ih (max a x.price))

theorem mem_le_foldl_max :
    ∀ (bs : List AuctionBid) (a : ℚ) (x : AuctionBid), x ∈ bs →
      x.price ≤ bs.foldl (fun m y => max m y.price) a
  | y :: bs, a, x, hx => by
      rcases List.mem_cons.mp hx with h | h
      · subst h
        exact le_trans (le_max_right a x.price) (le_foldl_max _ bs)
      · exact mem_le_foldl_max bs (max a y.price) x h

theorem foldl_min_le (a : ℚ) (bs : List AuctionBid) :
    bs.foldl (fun m x => min m x.price) a ≤ a := by
  induction bs generalizing a with
  | nil => exact le_refl a
  | cons x bs ih =>
      exact le_trans (ih (min a x.price)) (min_le_left a x.price)

theorem foldl_min_le_mem :
    ∀ (bs : List AuctionBid) (a : ℚ) (x : AuctionBid), x ∈ bs →
      bs.foldl (fun m y => min m y.price) a ≤ x.price
  | y :: bs, a, x, hx => by
      rcases List.mem_cons.mp hx with h | h
      · subst h
        exact le_trans (foldl_min_le _ bs) (min_le_right a x.price)
      · exact foldl_min_le_mem bs (min a y.price) x h

theorem le_maxPrice {b : AuctionBid} {bs : List AuctionBid} {x : AuctionBid}
    (hx : x ∈ b :: bs) : x.price ≤ maxPrice b bs := by
  rcases List.mem_cons.mp hx with h | h
  · subst h
    exact le_foldl_max _ bs
  · exact mem_le_foldl_max bs b.price x h

theorem minPrice_le {b : AuctionBid} {bs : List AuctionBid} {x : AuctionBid}
    (hx : x ∈ b :: bs) : minPrice b bs ≤ x.price := by
  rcases List.mem_cons.mp hx with h | h
  · subst h
    exact foldl_min_le _ bs
  · exact foldl_min_le_mem bs b.price x h

theorem slaScore_bounds (x : AuctionBid) :
    0 ≤ slaScore x ∧ slaScore x ≤ 1 := by
  have h1 : (1 : ℤ) ≤ max x.estimated_minutes 1 := le_max_right _ _
  have h1q : (1 : ℚ) ≤ ((max x.estimated_minutes 1 : ℤ) : ℚ) := by
    exact_mod_cast h1
  have hpos : (0 : ℚ) < ((max x.estimated_minutes 1 : ℤ) : ℚ) :=
    lt_of_lt_of_le one_pos h1q
  constructor
  · exact le_min (by norm_num) (div_nonneg (by norm_num) (le_of_lt hpos))
  · exact min_le_left _ _

theorem weightsFor_bounds (s : String) :
    0 ≤ (weightsFor s).wprice ∧ 0 ≤ (weightsFor s).wtrust ∧
    0 ≤ (weightsFor s).wconfidence ∧ 0 ≤ (weightsFor s).wsla ∧
    (weightsFor s).wprice + (weightsFor s).wtrust
      + (weightsFor s).wconfidence + (weightsFor s).wsla = 1 := by
  unfold weightsFor
  split_ifs <;> norm_num

theorem priceScore_bounds (b : AuctionBid) (bs : List AuctionBid)
    {x : AuctionBid} (hx : x ∈ b :: bs) :
    0 ≤ priceScore (minPrice b bs) (priceRange (maxPrice b bs) (minPrice b bs)) x ∧
    priceScore (minPrice b bs) (priceRange (maxPrice b bs) (minPrice b bs)) x ≤ 1 := by
  have hlo : minPrice b bs ≤ x.price := minPrice_le hx
  have hhi : x.price ≤ maxPrice b bs := le_maxPrice hx
  by_cases heq : maxPrice b bs = minPrice b bs
  · have hx' : x.price = minPrice b bs := le_antisymm (heq ▸ hhi) hlo
    simp [priceScore, priceRange, heq, hx']
  · have hlt : minPrice b bs < maxPrice b bs :=
      lt_of_le_of_ne (le_trans (minPrice_le (List.mem_cons_self b bs))
        (le_maxPrice (List.mem_cons_self b bs))) (fun h => heq h.symm)
    have hrange : priceRange (maxPrice b bs) (minPrice b bs)
        = maxPrice b bs - minPrice b bs := by
      simp [priceRange, heq]
    have hrpos : 0 < maxPrice b bs - minPrice b bs := by linarith
    have h0 : 0 ≤ (x.price - minPrice b bs) / (maxPrice b bs - minPrice b bs) :=
      div_nonneg (by linarith) (le_of_lt hrpos)
    have h1 : (x.price - minPrice b bs) / (maxPrice b bs - minPrice b bs) ≤ 1 :=
      (div_le_one hrpos).mpr (by linarith)
    constructor <;> (simp only [priceScore, hrange]; linarith)

theorem bidScore_bounds (w : Weights) (minp range : ℚ) (x : AuctionBid)
    (hw : 0 ≤ w.wprice ∧ 0 ≤ w.wtrust ∧ 0 ≤ w.wconfidence ∧ 0 ≤ w.wsla ∧
      w.wprice + w.wtrust + w.wconfidence + w.wsla = 1)
    (hps : 0 ≤ priceScore minp range x ∧ priceScore minp range x ≤ 1)
    (ht : 0 ≤ x.trust_score ∧ x.trust_score ≤ 1)
    (hc : 0 ≤ x.confidence ∧ x.confidence ≤ 1) :
    0 ≤ bidScore w minp range x ∧ bidScore w minp range x ≤ 1 := by
  obtain ⟨hw1, hw2, hw3, hw4, hwsum⟩ := hw
  obtain ⟨hs1, hs2⟩ := slaScore_bounds x
  unfold bidScore
  constructor
  · have := mul_nonneg hw1 hps.1
    have := mul_nonneg hw2 ht.1
    have := mul_nonneg hw3 hc.1
    have := mul_nonneg hw4 hs1
    linarith
  · have := mul_le_of_le_one_right hw1 hps.2
    have := mul_le_of_le_one_right hw2 ht.2
    have := mul_le_of_le_one_right hw3 hc.2
    have := mul_le_of_le_one_right hw4 hs2
    linarith

theorem foldl_max_const (c : ℚ) {bs : List AuctionBid}
    (h : ∀ x ∈ bs, x.price = c) :
    bs.foldl (fun m x => max m x.price) c = c := by
  induction bs with
  | nil => rfl
  | cons x bs ih =>
      have hx : x.price = c := h x (List.mem_cons_self x bs)
      simp only [List.foldl_cons, hx, max_self]
      exact ih fun y hy => h y (List.mem_cons_of_mem x hy)

theorem foldl_min_const (c : ℚ) {bs : List AuctionBid}
    (h : ∀ x ∈ bs, x.price = c) :
    bs.foldl (fun m x => min m x.price) c = c := by
  induction bs with
  | nil => rfl
  | cons x bs ih =>
      have hx : x.price = c := h x (List.mem_cons_self x bs)
      simp only [List.foldl_cons, hx, min_self]
      exact ih fun y hy => h y (List.mem_cons_of_mem x hy)

end AEX

namespace AP2

/-- C4 counterexample: for base amount 10, fee 0.04% and reward 0.08%
(fee_amount 0.004, reward_amount 0.008), the cart total is 10.00 while
the sum of the displayed line items is 10 + 0.00 − 0.01 = 9.99: the
total is not the sum of the rounded lines (the aggregate is rounded
once, the lines separately), and although the reward percentage exceeds
the fee percentage the total is not strictly below the base amount. -/
theorem c4_cart_total_counterexample :
    (1 : ℚ) / 25 < 2 / 25
    ∧ (generate_cart_mandate 10 (1/25) (2/25)).total
        ≠ (generate_cart_mandate 10 (1/25) (2/25)).baseLine
          + (generate_cart_mandate 10 (1/25) (2/25)).feeLine
          + (generate_cart_mandate 10 (1/25) (2/25)).rewardLine
    ∧ ¬ (generate_cart_mandate 10 (1/25) (2/25)).total
        < (generate_cart_mandate 10 (1/25) (2/25)).baseLine := by
  have h : generate_cart_mandate 10 (1/25) (2/25)
      = ⟨10, 0, -(1/100), 10⟩ := by
    unfold generate_cart_mandate round2 rhe
    norm_num
  refine ⟨by norm_num, ?_, ?_⟩ <;> rw [h] <;> norm_num

/-- C4 (amended): when the base amount and the computed fee and reward
amounts are already exact at two decimals, rounding is the identity on
every quantity involved, so the cart total equals the sum of the three
displayed line items, and a reward amount exceeding the fee amount makes
the total strictly less than the base amount.  (As generated, the total
is `round2` of the un-rounded aggregate, so off the cent grid it can
differ from the sum of the individually rounded lines — see the
counterexample.)  The example in the spec (base 25.00, fee 3% = 0.75, reward
4% = 1.00, net −0.25, total 24.75) satisfies these hypotheses. -/
theorem c4_cart_total_eq_sum_on_cents (amount feePct rewardPct : ℚ)
    (ha : isCents amount)
    (hf : isCents (amount * (feePct / 100)))
    (hr : isCents (amount * (rewardPct / 100))) :
    (generate_cart_mandate amount feePct rewardPct).total
        = (generate_cart_mandate amount feePct rewardPct).baseLine
          + (generate_cart_mandate amount feePct rewardPct).feeLine
          + (generate_cart_mandate amount feePct rewardPct).rewardLine
    ∧ (amount * (feePct / 100) < amount * (rewardPct / 100) →
        (generate_cart_mandate amount feePct rewardPct).total < amount) := by
  have h1 : round2 (amount * (feePct / 100)) = amount * (feePct / 100) :=
    round2_eq_self hf
  have h2 : round2 (-(amount * (rewardPct / 100)))
      = -(amount * (rewardPct / 100)) :=
    round2_eq_self (isCents_neg hr)
  have h3 : round2 (amount + (amount * (feePct / 100)
        - amount * (rewardPct / 100)))
      = amount + (amount * (feePct / 100) - amount * (rewardPct / 100)) :=
    round2_eq_self (isCents_add ha (isCents_sub hf hr))
  simp only [generate_cart_mandate, h1, h2, h3]
  constructor
  · ring
  · intro hlt
    linarith

/-- Witness for the amended C4 theorem at the example given in the
spec: base
25.00 with fee 3% and reward 4% — every hypothesis holds (all three
quantities are exact cents), the reward line (1.00) exceeds the fee line
(0.75), and the produced total both equals the line-item sum and is
strictly below 25; it concretely equals 24.75. -/
theorem c4_cart_total_eq_sum_on_cents_witness :
    ((generate_cart_mandate 25 3 4).total
        = (generate_cart_mandate 25 3 4).baseLine
          + (generate_cart_mandate 25 3 4).feeLine
          + (generate_cart_mandate 25 3 4).rewardLine
      ∧ (generate_cart_mandate 25 3 4).total < 25)
    ∧ (generate_cart_mandate 25 3 4).total = 2475/100 := by
  have hmain := c4_cart_total_eq_sum_on_cents 25 3 4
    ⟨2500, by norm_num⟩ ⟨75, by norm_num⟩ ⟨100, by norm_num⟩
  have htot : (generate_cart_mandate 25 3 4).total = 2475/100 := by
    unfold generate_cart_mandate round2 rhe
    norm_num
  exact ⟨⟨hmain.1, hmain.2 (by norm_num)⟩, htot⟩

end AP2

namespace Gate

/-- C2: with `skip_payment` unset, (a) a claimed positive payment amount
strictly below the service price is rejected with the underpaid error,
for every value of `payment_id` and independently of the transaction
history (the amount check precedes both); (b) a request carrying a
nonempty `payment_id` and no amount field (which the code reads as the
default 0) is accepted with no further verification; (c) a request with
no payment fields whose history contains no matching record is rejected
with the message naming the required amount. -/
theorem c2_payment_gate_order (price : ℚ) (agentId : String)
    (historyResult : Option (List TxRecord)) (msg : PaymentMessage)
    (hskip : msg.skip_payment = false) :
    (0 < msg.payment_amount → msg.payment_amount < price →
        ∀ hist2 : Option (List TxRecord),
          verify_payment_received price agentId hist2 msg
            = (false, underpaidMessage msg.payment_amount price))
    ∧ (msg.payment_amount = 0 → msg.payment_id ≠ "" →
        verify_payment_received price agentId historyResult msg = (true, ""))
    ∧ (msg.payment_amount = 0 → msg.payment_id = "" →
        (∀ hist, historyResult = some hist →
          ∀ tx ∈ hist, matchesPayment agentId price msg.from_agent tx = false) →
        verify_payment_received price agentId historyResult msg
          = (false, paymentRequiredMessage price agentId)) := by
  refine ⟨?_, ?_, ?_⟩
  · intro hpos hlt hist2
    simp [verify_payment_received, verifyOutcome, hskip, hpos, hlt]
  · intro h0 hid
    simp [verify_payment_received, verifyOutcome, hskip, h0, hid]
  · intro h0 hid hno
    have hout : verifyOutcome price agentId historyResult msg
        = VerifyOutcome.rejected := by
      unfold verifyOutcome
      rw [if_neg (by simp [hskip]), if_neg (by simp [h0]),
        if_neg (by simp [hid])]
      by_cases hfa : msg.from_agent ≠ ""
      · rw [if_pos hfa]
        cases hh : historyResult with
        | none => rfl
        | some hist =>
            have hany : (lastTen hist).reverse.any
                (matchesPayment agentId price msg.from_agent) = false := by
              rw [List.any_eq_false]
              intro tx htx
              have htx' : tx ∈ hist := by
                have := List.mem_reverse.mp htx
                exact List.drop_subset _ _ this
              simp [hno hist hh tx htx']
            simp [hany]
      · rw [if_neg hfa]
    simp [verify_payment_received, hout]

/-- Witness for C2: the instance named in the spec — claimed amount 5 against
price 10 with a `payment_id` of `"x"` present — is rejected with the
underpaid error (the id does not rescue the short payment). -/
theorem c2_payment_gate_order_witness :
    verify_payment_received 10 "provider-1" none
        ⟨"", 5, "x", false⟩
      = (false, underpaidMessage 5 10) :=
  (c2_payment_gate_order 10 "provider-1" none ⟨"", 5, "x", false⟩ rfl).1
    (by norm_num) (by norm_num) none

/-- C10: a claimed `payment_amount` of 0 behaves as no claim at all: the
underpaid rule can never fire (for any service price, including positive
ones), and if the request also carries a nonempty `payment_id` it is
accepted without consulting any transaction history. -/
theorem c10_zero_amount_is_no_claim (price : ℚ) (agentId : String)
    (historyResult : Option (List TxRecord)) (msg : PaymentMessage)
    (h0 : msg.payment_amount = 0) :
    verifyOutcome price agentId historyResult msg ≠ VerifyOutcome.underpaid
    ∧ (msg.skip_payment = false → msg.payment_id ≠ "" →
        ∀ hist2 : Option (List TxRecord),
          verify_payment_received price agentId hist2 msg = (true, "")) := by
  constructor
  · cases hsk : msg.skip_payment with
    | true => simp [verifyOutcome, hsk]
    | false =>
        unfold verifyOutcome
        rw [if_neg (by simp [hsk]), if_neg (by simp [h0])]
        by_cases hid : msg.payment_id ≠ ""
        · simp [hid]
        · rw [if_neg hid]
          cases (if msg.from_agent ≠ "" then historyResult else none) with
          | none => simp
          | some hist =>
              by_cases hb : (lastTen hist).reverse.any
                  (matchesPayment agentId price msg.from_agent) = true
              · simp [hb]
              · simp only [Bool.not_eq_true] at hb
                simp [hb]
  · intro hsk hid hist2
    simp [verify_payment_received, verifyOutcome, hsk, h0, hid]

/-- Witness for C10: price 10 (positive), claimed amount 0 with
`payment_id` `"pid"`: accepted outright, with an arbitrary history
supplied. -/
theorem c10_zero_amount_is_no_claim_witness :
    verify_payment_received 10 "provider-1" (some [])
        ⟨"", 0, "pid", false⟩ = (true, "") :=
  (c10_zero_amount_is_no_claim 10 "provider-1" none
      ⟨"", 0, "pid", false⟩ rfl).2 rfl (by decide) (some [])

end Gate

namespace A2A

/-- C1 counterexample: a `message/send` whose handler yields one
`working` status event and then raises `boom` does not produce a
`failed` Task — the dispatcher returns a bare JSON-RPC internal-error
envelope (code -32603) and the stored task is left in state `working`,
not `failed`. -/
theorem c1_fault_counterexample :
    (handle_jsonrpc []
        ⟨"2.0", "message/send", some "r1", ⟨"user", [], "m1"⟩, "s1", none⟩
        "t1" "am1" ⟨[HandlerEvent.status "working" none], some "boom"⟩).2
      = RpcResponse.error (some "r1") (-32603) "boom"
    ∧ (lookupTask
        (handle_jsonrpc []
          ⟨"2.0", "message/send", some "r1", ⟨"user", [], "m1"⟩, "s1", none⟩
          "t1" "am1" ⟨[HandlerEvent.status "working" none], some "boom"⟩).1
        "t1").map (fun t => t.status.state) = some "working"
    ∧ ("working" : String) ≠ "failed" := by
  refine ⟨rfl, rfl, by decide⟩

/-- C1 (amended): when the handler raises while producing events on a
`message/send` (or delegating `message/stream`) call, the engine does
not convert the fault into a `failed` Task: the exception is caught at
the JSON-RPC dispatch boundary and returned as an internal-error
envelope (code -32603) carrying the request id and the error text, and
the stored task keeps whatever state the already-consumed status events
set (initially `submitted`), with no artifacts or agent reply
attached. -/
theorem c1_fault_becomes_error_envelope (store : TaskStore)
    (req : RpcRequest) (taskId agentMessageId : String)
    (events : List HandlerEvent) (err : String)
    (h2 : req.jsonrpc = "2.0")
    (hm : req.method = "message/send" ∨ req.method = "message/stream") :
    (handle_jsonrpc store req taskId agentMessageId ⟨events, some err⟩).2
        = RpcResponse.error req.reqId (-32603) err
    ∧ lookupTask
        (handle_jsonrpc store req taskId agentMessageId ⟨events, some err⟩).1
        taskId
      = some
          { id := taskId, sessionId := req.sessionId
            status := (processEvents events ⟨"submitted", none⟩ [] []).1
            history := [req.message], artifacts := [] } := by
  rcases hm with hm | hm <;>
    exact ⟨by simp [handle_jsonrpc, h2, hm, handle_message_send],
      by simp [handle_jsonrpc, h2, hm, handle_message_send,
        lookupTask_setTask_self]⟩

/-- Witness for the amended C1 theorem at the counterexample input. -/
theorem c1_fault_becomes_error_envelope_witness :
    (handle_jsonrpc []
        ⟨"2.0", "message/send", some "r1", ⟨"user", [], "m1"⟩, "s1", none⟩
        "t1" "am1" ⟨[HandlerEvent.status "working" none], some "boom"⟩).2
      = RpcResponse.error (some "r1") (-32603) "boom" :=
  (c1_fault_becomes_error_envelope []
      ⟨"2.0", "message/send", some "r1", ⟨"user", [], "m1"⟩, "s1", none⟩
      "t1" "am1" [HandlerEvent.status "working" none] "boom"
      rfl (Or.inl rfl)).1

/-- C9: when the handler finishes its event stream without raising, the
task returned by `message/send` (or `message/stream`) is in state
`completed` — unconditionally, whatever state the last status event
carried and whether or not any `result` event was yielded. -/
theorem c9_send_completes_unconditionally (store : TaskStore)
    (req : RpcRequest) (taskId agentMessageId : String)
    (events : List HandlerEvent)
    (h2 : req.jsonrpc = "2.0")
    (hm : req.method = "message/send" ∨ req.method = "message/stream") :
    ∃ t : A2ATask,
      (handle_jsonrpc store req taskId agentMessageId ⟨events, none⟩).2
          = RpcResponse.result req.reqId t
      ∧ t.status = ⟨"completed", none⟩ := by
  rcases hm with hm | hm <;>
    exact ⟨{ id := taskId, sessionId := req.sessionId
             status := ⟨"completed", none⟩
             history :=
               if (processEvents events ⟨"submitted", none⟩ [] []).2.2 ≠ [] then
                 [req.message]
                   ++ [⟨"agent",
                        (processEvents events ⟨"submitted", none⟩ [] []).2.2,
                        agentMessageId⟩]
               else [req.message]
             artifacts := (processEvents events ⟨"submitted", none⟩ [] []).2.1 },
      by simp [handle_jsonrpc, h2, hm, handle_message_send], rfl⟩

/-- Witness for C9: handler whose final (and only) status event carries
`input-required` and which yields no result event at all — the returned
task is still `completed`. -/
theorem c9_send_completes_unconditionally_witness :
    ∃ t : A2ATask,
      (handle_jsonrpc []
          ⟨"2.0", "message/send", some "r1", ⟨"user", [], "m1"⟩, "s1", none⟩
          "t1" "am1" ⟨[HandlerEvent.status "input-required" none], none⟩).2
        = RpcResponse.result (some "r1") t
      ∧ t.status = ⟨"completed", none⟩ :=
  c9_send_completes_unconditionally []
    ⟨"2.0", "message/send", some "r1", ⟨"user", [], "m1"⟩, "s1", none⟩
    "t1" "am1" [HandlerEvent.status "input-required" none] rfl (Or.inl rfl)

/-- C6: `tasks/cancel` on an id present in the store sets the status
of that task to `canceled` unconditionally — the current status, terminal or
not, is never examined — and returns the updated snapshot; on an id not
in the store it raises the `Task not found` error. -/
theorem c6_cancel_unconditional (store : TaskStore) (tid : String)
    (hne : tid ≠ "") :
    (∀ t, lookupTask store tid = some t →
        handle_tasks_cancel store (some tid)
          = (setTask store tid { t with status := ⟨"canceled", none⟩ },
             Except.ok { t with status := ⟨"canceled", none⟩ }))
    ∧ (lookupTask store tid = none →
        handle_tasks_cancel store (some tid)
          = (store, Except.error ("Task not found: " ++ tid))) := by
  constructor
  · intro t h
    simp [handle_tasks_cancel, hne, h]
  · intro h
    simp [handle_tasks_cancel, hne, h]

/-- Witness for C6: canceling a task whose status is already the
terminal `completed` returns an `ok` snapshot with status `canceled`
(not an error). -/
theorem c6_cancel_unconditional_witness :
    handle_tasks_cancel
        [("t1", ⟨"t1", "s1", ⟨"completed", none⟩, [], []⟩)] (some "t1")
      = ([("t1", ⟨"t1", "s1", ⟨"canceled", none⟩, [], []⟩)],
         Except.ok ⟨"t1", "s1", ⟨"canceled", none⟩, [], []⟩) := by
  have h := (c6_cancel_unconditional
      [("t1", ⟨"t1", "s1", ⟨"completed", none⟩, [], []⟩)] "t1"
      (by decide)).1 ⟨"t1", "s1", ⟨"completed", none⟩, [], []⟩ rfl
  simpa [setTask] using h

/-- C3 counterexample: the operation sequence "send a message whose
handler immediately finishes, then cancel the task" moves the state of
the task from the terminal `completed` to `canceled`: a dispatched input
does produce a transition out of a terminal state. -/
theorem c3_terminal_exit_counterexample :
    ((lookupTask
        (runOps [] [EngineOp.sendMessage "t1" "s1" ⟨"user", [], "m0"⟩ "am1"
            ⟨[], none⟩]) "t1").map (fun t => t.status.state)
      = some "completed")
    ∧ isTerminal "completed"
    ∧ ((lookupTask
        (runOps [] [EngineOp.sendMessage "t1" "s1" ⟨"user", [], "m0"⟩ "am1"
            ⟨[], none⟩,
          EngineOp.cancelTask (some "t1")]) "t1").map
        (fun t => t.status.state)
      = some "canceled")
    ∧ ("canceled" : String) ≠ "completed" := by
  exact ⟨rfl, Or.inl rfl, rfl, by decide⟩

/-- C3 (amended): across dispatched operations, the status of an
existing task is only ever changed by `tasks/cancel`, which sets `canceled`
unconditionally — including from the terminal states — while `tasks/get`
and a `message/send` for a fresh task id leave it untouched; in
particular no dispatched operation ever returns an existing task to
`submitted`.  (Within a single `message/send` the status follows the
status events of the handler itself before the final `completed`
assignment.) -/
theorem c3_existing_task_changes_only_to_canceled (store : TaskStore)
    (op : EngineOp) (tid : String) (t t' : A2ATask)
    (hfresh : ∀ ftid sid m amid run,
        op = EngineOp.sendMessage ftid sid m amid run →
        lookupTask store ftid = none)
    (h : lookupTask store tid = some t)
    (h' : lookupTask (applyOp store op) tid = some t') :
    t'.status = t.status ∨ t'.status = ⟨"canceled", none⟩ := by
  cases op with
  | sendMessage ftid sid m amid run =>
      have hf := hfresh ftid sid m amid run rfl
      have hne : tid ≠ ftid := by
        intro hEq
        rw [hEq, hf] at h
        cases h
      have hsame :
          lookupTask (applyOp store (EngineOp.sendMessage ftid sid m amid run)) tid
            = lookupTask store tid :=
        handle_message_send_store_other store ftid sid m amid run hne
      rw [hsame, h] at h'
      exact Or.inl (Option.some.inj h' ▸ rfl)
  | getTask oid =>
      have hsame : applyOp store (EngineOp.getTask oid) = store := rfl
      rw [hsame, h] at h'
      exact Or.inl (Option.some.inj h' ▸ rfl)
  | cancelTask oid =>
      cases oid with
      | none =>
          have hsame : applyOp store (EngineOp.cancelTask none) = store := rfl
          rw [hsame, h] at h'
          exact Or.inl (Option.some.inj h' ▸ rfl)
      | some ctid =>
          by_cases hblank : ctid = ""
          · have hsame :
                applyOp store (EngineOp.cancelTask (some ctid)) = store := by
              simp [applyOp, handle_tasks_cancel, hblank]
            rw [hsame, h] at h'
            exact Or.inl (Option.some.inj h' ▸ rfl)
          · cases hc : lookupTask store ctid with
            | none =>
                have hsame :
                    applyOp store (EngineOp.cancelTask (some ctid)) = store := by
                  simp [applyOp, handle_tasks_cancel, hblank, hc]
                rw [hsame, h] at h'
                exact Or.inl (Option.some.inj h' ▸ rfl)
            | some tc =>
                have hstep :
                    applyOp store (EngineOp.cancelTask (some ctid))
                      = setTask store ctid
                          { tc with status := ⟨"canceled", none⟩ } := by
                  simp [applyOp, handle_tasks_cancel, hblank, hc]
                by_cases hid : tid = ctid
                · subst hid
                  rw [hstep, lookupTask_setTask_self] at h'
                  exact Or.inr (Option.some.inj h'.symm ▸ rfl)
                · rw [hstep, lookupTask_setTask_ne store _ hid, h] at h'
                  exact Or.inl (Option.some.inj h' ▸ rfl)

/-- Witness for the amended C3 theorem: canceling a stored `completed`
task — the status change it makes is exactly to `canceled`. -/
theorem c3_existing_task_changes_only_to_canceled_witness :
    (⟨"t1", "s1", ⟨"canceled", none⟩, [], []⟩ : A2ATask).status
        = (⟨"t1", "s1", ⟨"completed", none⟩, [], []⟩ : A2ATask).status
    ∨ (⟨"t1", "s1", ⟨"canceled", none⟩, [], []⟩ : A2ATask).status
        = ⟨"canceled", none⟩ :=
  c3_existing_task_changes_only_to_canceled
    [("t1", ⟨"t1", "s1", ⟨"completed", none⟩, [], []⟩)]
    (EngineOp.cancelTask (some "t1")) "t1"
    ⟨"t1", "s1", ⟨"completed", none⟩, [], []⟩
    ⟨"t1", "s1", ⟨"canceled", none⟩, [], []⟩
    (fun _ _ _ _ _ hop => nomatch hop) rfl (by simp [applyOp,
      handle_tasks_cancel, lookupTask, setTask])

end A2A

namespace AEX

/-- C5: on any nonempty bid list whose fields are within their
documented ranges, `evaluate_bids` (for every strategy string, hence in
particular `lowest_price`, `best_quality` and `balanced`) succeeds and
returns exactly the input bids — a permutation with nothing added or
dropped — each carrying a score in [0, 1], sorted descending by score,
with equal-score bids keeping their order from the scoring pass (which
preserves input order). -/
theorem c5_evaluate_bids_spec (b : AuctionBid) (bs : List AuctionBid)
    (strategy : String)
    (hprice : ∀ x ∈ b :: bs, 0 ≤ x.price)
    (htrust : ∀ x ∈ b :: bs, 0 ≤ x.trust_score ∧ x.trust_score ≤ 1)
    (hconf : ∀ x ∈ b :: bs, 0 ≤ x.confidence ∧ x.confidence ≤ 1)
    (hdur : ∀ x ∈ b :: bs, 0 ≤ x.estimated_minutes) :
    ∃ out, evaluate_bids (b :: bs) strategy = some out
      ∧ List.Perm (out.map Prod.fst) (b :: bs)
      ∧ (∀ p ∈ out, 0 ≤ p.2 ∧ p.2 ≤ 1)
      ∧ List.Pairwise (fun p q : AuctionBid × ℚ => q.2 ≤ p.2) out
      ∧ (∀ p q : AuctionBid × ℚ, p.2 = q.2 →
          List.Sublist [p, q] (scoredBids b bs strategy) →
          List.Sublist [p, q]
            ((scoredBids b bs strategy).mergeSort
              (fun p q => decide (q.2 ≤ p.2)))) := by
  have htrans : ∀ a c d : AuctionBid × ℚ,
      (fun p q : AuctionBid × ℚ => decide (q.2 ≤ p.2)) a c = true →
      (fun p q : AuctionBid × ℚ => decide (q.2 ≤ p.2)) c d = true →
      (fun p q : AuctionBid × ℚ => decide (q.2 ≤ p.2)) a d = true := by
    intro a c d h1 h2
    simp only [decide_eq_true_eq] at h1 h2 ⊢
    exact le_trans h2 h1
  have htotal : ∀ a c : AuctionBid × ℚ,
      ((fun p q : AuctionBid × ℚ => decide (q.2 ≤ p.2)) a c
        || (fun p q : AuctionBid × ℚ => decide (q.2 ≤ p.2)) c a) = true := by
    intro a c
    simp only [Bool.or_eq_true, decide_eq_true_eq]
    exact le_total c.2 a.2
  refine ⟨(scoredBids b bs strategy).mergeSort
      (fun p q => decide (q.2 ≤ p.2)), rfl, ?_, ?_, ?_, ?_⟩
  · have hperm := List.mergeSort_perm (scoredBids b bs strategy)
      (fun p q => decide (q.2 ≤ p.2))
    have hmap : (scoredBids b bs strategy).map Prod.fst = b :: bs := by
      simp [scoredBids, Function.comp_def]
    exact hmap ▸ hperm.map Prod.fst
  · intro p hp
    have hp' : p ∈ scoredBids b bs strategy := List.mem_mergeSort.mp hp
    simp only [scoredBids] at hp'
    obtain ⟨x, hx, hxe⟩ := List.mem_map.mp hp'
    subst hxe
    exact bidScore_bounds (weightsFor strategy) (minPrice b bs)
      (priceRange (maxPrice b bs) (minPrice b bs)) x
      (weightsFor_bounds strategy) (priceScore_bounds b bs hx)
      (htrust x hx) (hconf x hx)
  · have hs := List.sorted_mergeSort htrans htotal (scoredBids b bs strategy)
    exact hs.imp (fun h => by simpa using h)
  · intro p q hpq hsub
    refine List.sublist_mergeSort htrans htotal ?_ hsub
    refine List.Pairwise.cons ?_ (List.pairwise_singleton _ _)
    intro y hy
    have hyq : y = q := List.mem_singleton.mp hy
    subst hyq
    exact decide_eq_true (le_of_eq hpq.symm)

/-- Witness for C5: two concrete in-range bids under the `balanced`
strategy. -/
theorem c5_evaluate_bids_spec_witness :
    ∃ out, evaluate_bids
        [⟨"legal-agent-a", "Budget Legal AI", 12, 8/10, 5, 6/10,
            "VERIFIED", "u1"⟩,
         ⟨"legal-agent-b", "Standard Legal AI", 18, 85/100, 10, 8/10,
            "TRUSTED", "u2"⟩] "balanced" = some out
      ∧ List.Perm (out.map Prod.fst)
          [⟨"legal-agent-a", "Budget Legal AI", 12, 8/10, 5, 6/10,
                "VERIFIED", "u1"⟩,
             ⟨"legal-agent-b", "Standard Legal AI", 18, 85/100, 10, 8/10,
                "TRUSTED", "u2"⟩]
      ∧ (∀ p ∈ out, 0 ≤ p.2 ∧ p.2 ≤ 1)
      ∧ List.Pairwise (fun p q : AuctionBid × ℚ => q.2 ≤ p.2) out
      ∧ (∀ p q : AuctionBid × ℚ, p.2 = q.2 →
          List.Sublist [p, q]
            (scoredBids
              ⟨"legal-agent-a", "Budget Legal AI", 12, 8/10, 5, 6/10,
                "VERIFIED", "u1"⟩
              [⟨"legal-agent-b", "Standard Legal AI", 18, 85/100, 10, 8/10,
                "TRUSTED", "u2"⟩] "balanced") →
          List.Sublist [p, q]
            ((scoredBids
              ⟨"legal-agent-a", "Budget Legal AI", 12, 8/10, 5, 6/10,
                "VERIFIED", "u1"⟩
              [⟨"legal-agent-b", "Standard Legal AI", 18, 85/100, 10, 8/10,
                "TRUSTED", "u2"⟩] "balanced").mergeSort
              (fun p q => decide (q.2 ≤ p.2)))) :=
  c5_evaluate_bids_spec
    ⟨"legal-agent-a", "Budget Legal AI", 12, 8/10, 5, 6/10, "VERIFIED", "u1"⟩
    [⟨"legal-agent-b", "Standard Legal AI", 18, 85/100, 10, 8/10,
        "TRUSTED", "u2"⟩] "balanced"
    (by
      intro x hx
      rcases List.mem_cons.mp hx with rfl | hx
      · norm_num
      · rcases List.mem_cons.mp hx with rfl | hx
        · norm_num
        · cases hx)
    (by
      intro x hx
      rcases List.mem_cons.mp hx with rfl | hx
      · norm_num
      · rcases List.mem_cons.mp hx with rfl | hx
        · norm_num
        · cases hx)
    (by
      intro x hx
      rcases List.mem_cons.mp hx with rfl | hx
      · norm_num
      · rcases List.mem_cons.mp hx with rfl | hx
        · norm_num
        · cases hx)
    (by
      intro x hx
      rcases List.mem_cons.mp hx with rfl | hx
      · norm_num
      · rcases List.mem_cons.mp hx with rfl | hx
        · norm_num
        · cases hx)

/-- C7: when every bid in a nonempty bid set has the same price, the
price-score component computed by `evaluate_bids` is exactly 1 for every
bid: the guard sets the divisor to 1, so there is no division by zero
(and over ℚ no NaN can arise). -/
theorem c7_equal_prices_unit_price_score (b : AuctionBid)
    (bs : List AuctionBid) (c : ℚ) (h : ∀ x ∈ b :: bs, x.price = c) :
    ∀ x ∈ b :: bs,
      priceScore (minPrice b bs)
        (priceRange (maxPrice b bs) (minPrice b bs)) x = 1 := by
  have hb : b.price = c := h b (List.mem_cons_self b bs)
  have hmax : maxPrice b bs = c := by
    unfold maxPrice
    rw [hb]
    exact foldl_max_const c (fun y hy => h y (List.mem_cons_of_mem b hy))
  have hmin : minPrice b bs = c := by
    unfold minPrice
    rw [hb]
    exact foldl_min_const c (fun y hy => h y (List.mem_cons_of_mem b hy))
  intro x hx
  simp [priceScore, priceRange, hmin, hmax, h x hx]

/-- Witness for C7: two bids both priced 7. -/
theorem c7_equal_prices_unit_price_score_witness :
    priceScore
        (minPrice ⟨"a", "A", 7, 1/2, 3, 1/2, "VERIFIED", "u1"⟩
          [⟨"b", "B", 7, 1/2, 4, 1/2, "TRUSTED", "u2"⟩])
        (priceRange
          (maxPrice ⟨"a", "A", 7, 1/2, 3, 1/2, "VERIFIED", "u1"⟩
            [⟨"b", "B", 7, 1/2, 4, 1/2, "TRUSTED", "u2"⟩])
          (minPrice ⟨"a", "A", 7, 1/2, 3, 1/2, "VERIFIED", "u1"⟩
            [⟨"b", "B", 7, 1/2, 4, 1/2, "TRUSTED", "u2"⟩]))
        ⟨"a", "A", 7, 1/2, 3, 1/2, "VERIFIED", "u1"⟩ = 1 :=
  c7_equal_prices_unit_price_score
    ⟨"a", "A", 7, 1/2, 3, 1/2, "VERIFIED", "u1"⟩
    [⟨"b", "B", 7, 1/2, 4, 1/2, "TRUSTED", "u2"⟩] 7
    (by
      intro x hx
      rcases List.mem_cons.mp hx with rfl | hx
      · norm_num
      · rcases List.mem_cons.mp hx with rfl | hx
        · norm_num
        · cases hx)
    ⟨"a", "A", 7, 1/2, 3, 1/2, "VERIFIED", "u1"⟩
    (List.mem_cons_self _ _)

/-- C8: when zero well-formed bids come back across all providers, the
caller substitutes the synthetic set, each of whose entries is labelled
with the `(SIMULATED)` name suffix and the `UNVERIFIED` tier; when at
least one real bid was received the result is exactly the received bids,
with no synthetic entry added. -/
theorem c8_zero_bid_fallback (pages : ℚ) (urlA urlB urlC : String)
    (received : List AuctionBid) :
    (received = [] →
        fetch_real_bids_outcome pages urlA urlB urlC received
            = simulate_bids pages urlA urlB urlC
        ∧ ∀ bd ∈ fetch_real_bids_outcome pages urlA urlB urlC received,
            (∃ base : String, bd.provider_name = base ++ " (SIMULATED)")
            ∧ bd.tier = "UNVERIFIED")
    ∧ (received ≠ [] →
        fetch_real_bids_outcome pages urlA urlB urlC received = received) := by
  constructor
  · rintro rfl
    refine ⟨rfl, ?_⟩
    intro bd hbd
    have hbd' : bd ∈ simulate_bids pages urlA urlB urlC := hbd
    simp only [simulate_bids, List.mem_cons, List.not_mem_nil,
      or_false] at hbd'
    rcases hbd' with rfl | rfl | rfl
    · exact ⟨⟨"Budget Legal AI", rfl⟩, rfl⟩
    · exact ⟨⟨"Standard Legal AI", rfl⟩, rfl⟩
    · exact ⟨⟨"Premium Legal AI", rfl⟩, rfl⟩
  · intro h
    have hne : received.isEmpty = false := by
      cases received with
      | nil => exact absurd rfl h
      | cons a l => rfl
    simp [fetch_real_bids_outcome, hne]

/-- Witness for C8: the empty round falls back to the simulated set, and
a round with one real bid returns it untouched. -/
theorem c8_zero_bid_fallback_witness :
    fetch_real_bids_outcome 5 "hA" "hB" "hC" []
        = simulate_bids 5 "hA" "hB" "hC"
    ∧ fetch_real_bids_outcome 5 "hA" "hB" "hC"
        [⟨"p", "P", 10, 1/2, 3, 1/2, "VERIFIED", "e"⟩]
      = [⟨"p", "P", 10, 1/2, 3, 1/2, "VERIFIED", "e"⟩] :=
  ⟨((c8_zero_bid_fallback 5 "hA" "hB" "hC" []).1 rfl).1,
   (c8_zero_bid_fallback 5 "hA" "hB" "hC"
      [⟨"p", "P", 10, 1/2, 3, 1/2, "VERIFIED", "e"⟩]).2 (by simp)⟩

end AEX
